import Mathlib

/-!
Verification of the two libgroove pipeline consumer stages:
the loudness-detector stage (`src/grooveloudness/loudness.c`) and the SDL
playback stage (`src/grooveplayer/player.c`).

The C code is shallowly embedded: the per-stage mutable state becomes a Lean
structure, and each C function becomes a state-passing Lean function.  C
doubles are modelled as `ℚ` (no claim here depends on floating-point
rounding); playlist-item pointers are modelled as `Nat` identities (`Item`),
matching the code, which only ever compares them.  The external EBU R128
library is opaque per the interface contract: an accumulator is modelled as a
token carrying the values the library will report, and the library's
operations are a parameter (`EburLib`).  Allocation is modelled as
succeeding; the stages' allocation-failure policy (log and skip) is a
separate error path not exercised by the properties proved here.

The sink/queue primitives (`groove_queue_put`, `groove_queue_purge`,
`groove_queue_flush`, `groove_sink_buffer_get`) live outside this source
tree; where a definition embeds them it is modelled from the specified
BoundedControlQueue / BufferSource contract and says so in its doc comment.
-/

namespace Libgroove

/-- Playlist-item identity.  The stages never dereference a
`GroovePlaylistItem`; they only compare pointers, so an opaque `Nat`
identity is faithful.  A real item pointer is never NULL. -/
abbrev Item := Nat

/-- Model of an `ebur128_state`: an opaque accumulator carrying the values
the external library reports for it (`ebur128_loudness_global`,
`ebur128_sample_peak` channel 0/1, and true peaks for comparison with the
spec's wording).  The accumulation math itself is outside the stage per the
interface contract. -/
structure Ebur where
  loudness : ℚ
  samplePeak0 : ℚ
  samplePeak1 : ℚ
  truePeak0 : ℚ
  truePeak1 : ℚ
deriving DecidableEq

/-- The operations the loudness stage invokes on the external EBU R128
library.  `init` models `ebur128_init(2, 44100, SAMPLE_PEAK|MODE_I)`,
`addFrames` models `ebur128_add_frames_double`, `merge` models
`ebur128_loudness_global_multiple` applied to the raw slot array. -/
structure EburLib where
  init : Ebur
  addFrames : Ebur → ℚ → Ebur
  merge : List (Option Ebur) → ℚ

/-- A decoded audio buffer as seen by the loudness worker
(`GrooveBuffer`): owning item, start position in seconds, frame count and
sample rate (used only for the duration arithmetic), and the sample data
abstracted to the quantity handed to `addFrames`. -/
structure Buf where
  item : Item
  pos : ℚ
  frameCount : ℕ
  sampleRate : ℕ
  samples : ℚ
deriving DecidableEq

/-- `struct GrooveLoudnessDetectorInfo`. -/
structure LoudInfo where
  item : Option Item
  duration : ℚ
  loudness : ℚ
  peak : ℚ
deriving DecidableEq

namespace Loudness

/-- The mutable state of `struct GrooveLoudnessDetectorPrivate` together
with the `disable_album` configuration flag of the public struct.
`slots` is `all_track_states` (entries are `none` where the C array holds
NULL); `queue` is the contents of `info_queue` in FIFO order;
`infoQueueCount` is the logical occupancy maintained by the queue hooks. -/
structure LoudState where
  disableAlbum : Bool
  stateHistoryCount : Nat
  curTrackIndex : Nat
  slots : Nat → Option Ebur
  queue : List LoudInfo
  infoQueueCount : Int
  infoHead : Option Item
  infoPos : ℚ
  albumPeak : ℚ
  trackDuration : ℚ
  albumDuration : ℚ

/-- State right after `groove_loudness_detector_create`: `av_mallocz`
zeroes the private struct, so every field is its zero value — in
particular `info_head = NULL` with `info_pos = 0.0` (not the `-1.0`
"no track" sentinel used elsewhere). -/
def create_private_state : LoudState :=
  { disableAlbum := false
    stateHistoryCount := 0
    curTrackIndex := 0
    slots := fun _ => none
    queue := []
    infoQueueCount := 0
    infoHead := none
    infoPos := 0
    albumPeak := 0
    trackDuration := 0
    albumDuration := 0 }

/-- State after `groove_loudness_detector_attach`: the slot array is
`calloc`ed (`disable_album ? 1 : 128` slots, all NULL) and
`cur_track_index = 0`; the position fields keep their `create` values. -/
def attachState (da : Bool) : LoudState :=
  { create_private_state with
    disableAlbum := da
    stateHistoryCount := if da then 1 else 128 }

/-- `groove_queue_put` plus the stage's `info_queue_put` hook.
Modelled from the spec: `put(item)` appends to the FIFO (§4.1); the hook
(loudness.c lines 197-200) increments the logical occupancy counter. -/
def putInfo (s : LoudState) (info : LoudInfo) : LoudState :=
  { s with queue := s.queue ++ [info], infoQueueCount := s.infoQueueCount + 1 }

/-- The info record built by `emit_track_info` (lines 59-67): item and
duration from the tracked state, loudness from `ebur128_loudness_global`,
and the peak from `ebur128_sample_peak` of channel 0, replaced by channel
1's value when that is larger. -/
def mkTrackInfo (s : LoudState) (e : Ebur) : LoudInfo :=
  { item := s.infoHead
    duration := s.trackDuration
    loudness := e.loudness
    peak := if e.samplePeak1 > e.samplePeak0 then e.samplePeak1 else e.samplePeak0 }

/-- Tail of `emit_track_info` (lines 68-70) once the accumulator is in
hand: raise the running album peak if exceeded, then enqueue the record. -/
def emitWith (s : LoudState) (e : Ebur) : LoudState :=
  let info := mkTrackInfo s e
  let s1 := { s with albumPeak := if info.peak > s.albumPeak then info.peak else s.albumPeak }
  putInfo s1 info

/-- `emit_track_info` (lines 53-73): reads
`all_track_states[cur_track_index]`; when that slot is NULL the call into
`ebur128_loudness_global` dereferences a null pointer, modelled as `none`. -/
def emit_track_info (s : LoudState) : Option LoudState :=
  match s.slots s.curTrackIndex with
  | none => none
  | some e => some (emitWith s e)

/-- `resize_state_history` (lines 75-85).  The `realloc` size argument and
the `memset` start and length are element counts where byte counts are
required (the byte arithmetic is rendered in `ReallocModel` below): the
reallocation truncates the block below the entries it already holds and the
zero-fill writes outside it, and even on `realloc` failure the caller
ignores the `-1` and stores through the now-NULL array.  From this call on
the program's behaviour is undefined, so the model gives the run no defined
successor state. -/
def resize_state_history (_ : LoudState) : Option LoudState :=
  none

/-- Tail of the track-boundary block (lines 167-174): install a fresh
accumulator (`ebur128_init`) in the current slot, zero the track duration
and adopt the buffer's item and position. -/
def beginTrack (L : EburLib) (b : Buf) (s1 : LoudState) : LoudState :=
  { s1 with slots := Function.update s1.slots s1.curTrackIndex (some L.init)
            trackDuration := 0
            infoHead := some b.item
            infoPos := b.pos }

/-- Track-boundary handling in `detect_thread` (lines 152-175), taken when
`buffer->item != info_head`: if the current slot holds an accumulator, emit
its record, then either destroy it (single-track mode) or advance the slot
index — calling the corrupting `resize_state_history` when the history is
exhausted, which ends the run's defined behaviour; finally `beginTrack`
for the new item. -/
def trackBoundary (L : EburLib) (s : LoudState) (b : Buf) : Option LoudState :=
  (match s.slots s.curTrackIndex with
   | none => some s
   | some e =>
     let s2 := emitWith s e
     if s2.disableAlbum then
       some { s2 with slots := Function.update s2.slots s2.curTrackIndex none }
     else
       let s3 := { s2 with curTrackIndex := s2.curTrackIndex + 1 }
       if s3.stateHistoryCount ≤ s3.curTrackIndex then resize_state_history s3
       else some s3
  ).map (beginTrack L b)

/-- The accumulation tail of a successful fetch (lines 177-181): advance
both duration counters by `frame_count / sample_rate` and feed the
buffer's frames to the accumulator `e` found in the current slot. -/
def accumulate (L : EburLib) (b : Buf) (s1 : LoudState) (e : Ebur) : LoudState :=
  let dur := (b.frameCount : ℚ) / (b.sampleRate : ℚ)
  { s1 with trackDuration := s1.trackDuration + dur
            albumDuration := s1.albumDuration + dur
            slots := Function.update s1.slots s1.curTrackIndex (some (L.addFrames e b.samples)) }

/-- One `GROOVE_BUFFER_YES` iteration of the `detect_thread` loop (lines
152-184): boundary handling if the item changed, then `accumulate`.
`none` when the iteration's behaviour is undefined: the boundary reached
the corrupting resize, or `ebur128_add_frames_double` was handed a NULL
state. -/
def processBuffer (L : EburLib) (s : LoudState) (b : Buf) : Option LoudState :=
  match (if some b.item = s.infoHead then some s else trackBoundary L s b) with
  | none => none
  | some s1 =>
    match s1.slots s1.curTrackIndex with
    | none => none
    | some e => some (accumulate L b s1 e)

/-- The album record built in the `GROOVE_BUFFER_END` branch (lines
115-124): `av_mallocz` zeroes it, so the item is NULL and the loudness
stays 0 unless album mode computes the merged loudness. -/
def mkAlbumInfo (L : EburLib) (s : LoudState) : LoudInfo :=
  { item := none
    duration := s.albumDuration
    loudness := if s.disableAlbum then 0
                else L.merge ((List.range (s.curTrackIndex + 1)).map s.slots)
    peak := s.albumPeak }

/-- The `GROOVE_BUFFER_END` branch of `detect_thread` (lines 110-144):
unconditional final `emit_track_info` (null-accumulator dereference when no
buffer has ever been accumulated), album record, accumulator teardown and
slot-index reset in album mode, album counters reset, and the position
record cleared to the "no track" state. -/
def handleEnd (L : EburLib) (s : LoudState) : Option LoudState :=
  match emit_track_info s with
  | none => none
  | some s1 =>
    let s2 := putInfo s1 (mkAlbumInfo L s1)
    let s3 :=
      if s2.disableAlbum then s2
      else { s2 with slots := fun i => if i ≤ s2.curTrackIndex then none else s2.slots i
                     curTrackIndex := 0 }
    some { s3 with albumPeak := 0
                   albumDuration := 0
                   infoHead := none
                   infoPos := -1 }

/-- The buffer-consuming phase of a worker run: process `bufs` in order.
Returns the final state and `true`, or — when an iteration's behaviour
becomes undefined (corrupting resize or null accumulator) — the state
before that iteration and `false`; records of the partially executed dying
iteration are not modelled, the behaviour being undefined from that point. -/
def runBuffers (L : EburLib) : LoudState → List Buf → LoudState × Bool
  | s, [] => (s, true)
  | s, b :: t =>
    match processBuffer L s b with
    | none => (s, false)
    | some s1 => runBuffers L s1 t

/-- A complete worker run: consume `bufs` in order from the attach state,
then the end-of-stream signal.  Returns the records that were enqueued and
the final state; the state is `none` when the run's behaviour became
undefined — on the corrupting resize during a buffer iteration, or on the
null-accumulator dereference of an end-of-stream with no accumulated
buffer (which precedes any end-of-stream enqueue). -/
def runDetect (L : EburLib) (da : Bool) (bufs : List Buf) :
    List LoudInfo × Option LoudState :=
  match runBuffers L (attachState da) bufs with
  | (s, false) => (s.queue, none)
  | (s, true) =>
    match handleEnd L s with
    | none => (s.queue, none)
    | some s1 => (s1.queue, some s1)

/-- The predicate `info_queue_purge` (lines 212-217): a queued record
matches when its item pointer equals the purge item. -/
def info_queue_purge (purgeItem : Item) (r : LoudInfo) : Bool :=
  r.item == some purgeItem

/-- `sink_purge` for the loudness stage (lines 219-233).  Modelled from the
spec for the queue side: `purge(predicate)` removes every element where the
predicate holds, invoking the cleanup hook (which decrements the logical
occupancy) per removed element (§4.1).  Then the position record is cleared
to the "no track" state when the purged item is the current one. -/
def sink_purge (s : LoudState) (item : Item) : LoudState :=
  let s1 := { s with
    queue := s.queue.filter (fun r => ! info_queue_purge item r)
    infoQueueCount := s.infoQueueCount - (s.queue.countP (fun r => info_queue_purge item r) : Int) }
  if s1.infoHead = some item then { s1 with infoHead := none, infoPos := -1 } else s1

/-- `sink_flush` for the loudness stage (lines 235-251).  Modelled from the
spec for the queue side: `flush()` removes every element, invoking the
cleanup hook per element (§4.1).  Then the accumulators in slots
`0..cur_track_index` are destroyed (`ebur128_destroy` nulls the slot), the
slot index and track duration are reset, and the position record is
cleared.  `album_duration` and `album_peak` are not touched. -/
def sink_flush (s : LoudState) : LoudState :=
  let s1 := { s with queue := [], infoQueueCount := s.infoQueueCount - (s.queue.length : Int) }
  let s2 := { s1 with slots := fun i => if i ≤ s1.curTrackIndex then none else s1.slots i }
  { s2 with curTrackIndex := 0
            trackDuration := 0
            infoHead := none
            infoPos := -1 }

/-- State reset performed by `groove_loudness_detector_detach` (lines
362-389): queue flushed, every accumulator destroyed and the slot array
freed, slot index zeroed, and `info_head = NULL` with `info_pos = 0`
(zero, not the `-1.0` sentinel). -/
def detector_detach (s : LoudState) : LoudState :=
  { s with queue := []
           infoQueueCount := s.infoQueueCount - (s.queue.length : Int)
           slots := fun _ => none
           curTrackIndex := 0
           infoHead := none
           infoPos := 0 }

/-- The configurable fields of the public `struct GrooveLoudnessDetector`
that `groove_loudness_detector_create` initialises. -/
structure DetectorConfig where
  infoQueueSize : Int
  disableAlbum : Bool
deriving DecidableEq

/-- `INT_MAX` for the 32-bit C `int` of the target. -/
def intMax : Int := 2 ^ 31 - 1

/-- The defaults set by `groove_loudness_detector_create` (lines 301-303):
`info_queue_size = INT_MAX`, `disable_album` zeroed by `av_mallocz`. -/
def detector_create : DetectorConfig :=
  { infoQueueSize := intMax, disableAlbum := false }

/-- What one pass of the `detect_thread` loop head does. -/
inductive WorkerAct
  | wait
  | fetch
deriving DecidableEq

/-- The drain gate at the top of `detect_thread` (lines 95-99): when the
logical queue occupancy has reached `info_queue_size` the worker waits on
`drain_cond` and retries without fetching; otherwise it proceeds to the
source fetch. -/
def detect_thread_gate (size cnt : Int) : WorkerAct :=
  if size ≤ cnt then WorkerAct.wait else WorkerAct.fetch

/-- A scheduling step of the loudness stage system: one pass of the worker
loop head (with the number of records the pass would enqueue if it
fetches), or one consumer `groove_loudness_detector_info_get`, whose
`info_queue_get` hook (lines 202-210) decrements the occupancy and signals
the drain condition. -/
inductive SysStep
  | workerIter (puts : Nat)
  | consumerGet
deriving DecidableEq

/-- One observed worker-loop pass: the occupancy when the gate was
evaluated and whether the pass went on to fetch from the source. -/
structure TraceEntry where
  cntBefore : Int
  fetched : Bool
deriving DecidableEq

/-- Execution trace of the worker gate under a schedule: worker passes are
recorded with the occupancy they saw; a pass that fetches raises the
occupancy by the records it enqueues, a waiting pass changes nothing;
consumer gets lower the occupancy. -/
def traceRun (size : Int) : Int → List SysStep → List TraceEntry
  | _, [] => []
  | cnt, SysStep.workerIter puts :: rest =>
    match detect_thread_gate size cnt with
    | WorkerAct.wait => { cntBefore := cnt, fetched := false } :: traceRun size cnt rest
    | WorkerAct.fetch => { cntBefore := cnt, fetched := true } :: traceRun size (cnt + puts) rest
  | cnt, SysStep.consumerGet :: rest => traceRun size (cnt - 1) rest

end Loudness

/-- The PositionRecord invariant claimed by the spec: the current item
reference is null exactly when the elapsed-seconds field holds the `-1.0`
"no track" sentinel the stages use. -/
def posInv (head : Option Item) (pos : ℚ) : Prop :=
  head = none ↔ pos = -1

namespace ReallocModel

/-- `sizeof(ebur128_state *)` on the 64-bit targets the library builds
for. -/
def ptrSize : Nat := 8

/-- Byte-level view of the `all_track_states` allocation: how many bytes
the heap block owns and how many slots `state_history_count` says it has. -/
structure SlotArrayMem where
  allocBytes : Nat
  histCount : Nat
deriving DecidableEq

/-- The allocation made by `groove_loudness_detector_attach` (line 339):
`calloc(state_history_count, sizeof(ebur128_state*))` with
`state_history_count = 128` in album mode. -/
def attachAlloc : SlotArrayMem :=
  { allocBytes := 128 * ptrSize, histCount := 128 }

/-- The `realloc` performed by `resize_state_history` (lines 76-77,83):
`new_size = state_history_count * 2` and the block is reallocated to
`new_size` **bytes** — the size argument is the element count, not
`new_size * sizeof(ebur128_state*)` — while `state_history_count` is set
to `new_size` slots. -/
def resize_realloc_bytes (a : SlotArrayMem) : SlotArrayMem :=
  { allocBytes := 2 * a.histCount, histCount := 2 * a.histCount }

/-- Start offset in bytes of the `memset` at line 82:
`all_track_states + state_history_count` advances by pointer-sized
elements. -/
def resize_memset_start (a : SlotArrayMem) : Nat := a.histCount * ptrSize

/-- Length in bytes of that `memset`: `new_size - state_history_count`,
again an element count used as a byte count. -/
def resize_memset_len (a : SlotArrayMem) : Nat := 2 * a.histCount - a.histCount

/-- How many whole pointer slots a block of `allocBytes` bytes can hold. -/
def slotCapacity (a : SlotArrayMem) : Nat := a.allocBytes / ptrSize

/-- What the spec's growth policy requires of the reallocation: room for
`2 * histCount` slots, and the zero-fill covering exactly the new slots
(bytes `histCount * ptrSize` up to `2 * histCount * ptrSize`). -/
def specGrowBytes (a : SlotArrayMem) : Nat := 2 * a.histCount * ptrSize

end ReallocModel

namespace Player

/-- The event tags of `union GroovePlayerEvent`. -/
inductive PEvent
  | nowplaying
  | bufferunderrun
deriving DecidableEq

/-- A decoded buffer as held by the player: owning item, start position in
seconds, and its byte data (`size` is `data.length`). -/
structure PBuf where
  item : Item
  pos : ℚ
  data : List Int
deriving DecidableEq

/-- The mutable state of `struct GroovePlayerPrivate`: the held buffer and
its byte bookkeeping, the position record, and the event queue contents in
FIFO order. -/
structure PlayerState where
  audioBuf : Option PBuf
  audioBufSize : Nat
  audioBufIndex : Nat
  playHead : Option Item
  playPos : ℚ
  events : List PEvent
deriving DecidableEq

/-- Result of the non-blocking `groove_sink_buffer_get`. -/
inductive FetchRes
  | yes (b : PBuf)
  | eos
  | no
deriving DecidableEq

/-- The fetch block of `sdl_audio_callback` (lines 99-115) after the held
buffer was released and the byte bookkeeping zeroed.  Modelled from the
spec for the source side: `groove_sink_buffer_get` (BufferSource, outside
this tree) yields a buffer only for the DATA result and leaves the
out-parameter holding no buffer on END and on failure.  END emits
"now playing changed" and clears the position record; DATA emits
"now playing changed" when the item differs from the current one, then
adopts the buffer; any other result emits "buffer underrun". -/
def fetchUpdate (p : PlayerState) (r : FetchRes) : PlayerState :=
  match r with
  | FetchRes.eos =>
    { p with audioBuf := none
             events := p.events ++ [PEvent.nowplaying]
             playHead := none
             playPos := -1 }
  | FetchRes.yes b =>
    let p1 := if p.playHead = some b.item then p
              else { p with events := p.events ++ [PEvent.nowplaying] }
    { p1 with audioBuf := some b
              playHead := some b.item
              playPos := b.pos
              audioBufSize := b.data.length }
  | FetchRes.no =>
    { p with audioBuf := none
             events := p.events ++ [PEvent.bufferunderrun] }

/-- The copy step of `sdl_audio_callback` (lines 122-129): copy
`len1 = min(bytes remaining in buffer, bytes requested)` out of the held
buffer, advance the buffer index and the play position by
`len1 / bytes_per_sec`.  Returns the new state, the bytes written and the
bytes still requested. -/
def copyFrom (bps : ℚ) (p : PlayerState) (b : PBuf) (len : Nat) :
    PlayerState × List Int × Nat :=
  let len1 := min (p.audioBufSize - p.audioBufIndex) len
  ({ p with audioBufIndex := p.audioBufIndex + len1
            playPos := p.playPos + (len1 : ℚ) / bps },
   (b.data.drop p.audioBufIndex).take len1,
   len - len1)

/-- The fetch-and-refill part of the `sdl_audio_callback` loop, entered
with the held buffer exhausted and playback not paused.  Each level
releases the exhausted buffer, consumes one fetch result, then either
breaks with silence (`paused || !p->audio_buf`, lines 117-121) or copies
from the adopted buffer and loops.  A copy either satisfies the request
(`len` reaches 0) or exhausts the adopted buffer, so consecutive levels
always re-enter at the fetch.  Returns `none` when the supplied fetch
results are exhausted before the loop finishes. -/
def fillFetchLoop (paused : Bool) (bps : ℚ) :
    List FetchRes → PlayerState → Nat → Option (PlayerState × List FetchRes × List Int)
  | fr, p, 0 => some (p, fr, [])
  | [], _, _ + 1 => none
  | r :: fr, p, Nat.succ n =>
    let len := Nat.succ n
    let p1 := fetchUpdate { p with audioBufIndex := 0, audioBufSize := 0 } r
    if paused = true ∨ p1.audioBuf = none then
      some (p1, fr, List.replicate len 0)
    else
      match p1.audioBuf with
      | some b =>
        let step := copyFrom bps p1 b len
        (fillFetchLoop paused bps fr step.1 step.2.2).map
          (fun q => (q.1, q.2.1, step.2.1 ++ q.2.2))
      | none => none

/-- `sdl_audio_callback` (lines 82-133) as a function of the paused flag,
the stream byte rate, the player state, the requested byte count and the
sequence of results the non-blocking source fetch will return.  The first
loop iteration is taken apart here (no fetch needed, silence break, or one
copy) and the rest is `fillFetchLoop`; by the exhaustion argument above
this is exactly the C loop. -/
def sdl_audio_callback (paused : Bool) (bps : ℚ) (p : PlayerState) (len : Nat)
    (fr : List FetchRes) : Option (PlayerState × List FetchRes × List Int) :=
  if len = 0 then some (p, fr, [])
  else if paused = false ∧ p.audioBufSize ≤ p.audioBufIndex then
    fillFetchLoop paused bps fr p len
  else if paused = true ∨ p.audioBuf = none then
    some (p, fr, List.replicate len 0)
  else
    match p.audioBuf with
    | some b =>
      let step := copyFrom bps p b len
      (fillFetchLoop paused bps fr step.1 step.2.2).map
        (fun q => (q.1, q.2.1, step.2.1 ++ q.2.2))
    | none => none

/-- `sink_purge` for the player (player.c lines 135-151): when the held
buffer's item is the purged one, clear the position record, release the
buffer and emit "now playing changed"; otherwise do nothing.  The event
queue is never purged — events carry no item reference. -/
def sink_purge (p : PlayerState) (item : Item) : PlayerState :=
  if p.playHead = some item then
    { p with playHead := none
             playPos := -1
             audioBuf := none
             audioBufIndex := 0
             audioBufSize := 0
             events := p.events ++ [PEvent.nowplaying] }
  else p

/-- `sink_flush` for the player (player.c lines 153-164): unconditionally
release the held buffer and reset the byte bookkeeping.  The position
record and the event queue are untouched. -/
def sink_flush (p : PlayerState) : PlayerState :=
  { p with audioBuf := none, audioBufIndex := 0, audioBufSize := 0 }

end Player

namespace Loudness

/-- Number of per-track records among queued info records: those whose item
reference is non-null (the album summary record has a null item). -/
def perTrackCount (q : List LoudInfo) : Nat :=
  q.countP (fun r => r.item.isSome)

/-- Specification-side count of maximal runs of identical track items,
relative to the item a run may continue from: `runsFrom none l` is the
number of distinct maximal runs in `l`. -/
def runsFrom : Option Item → List Item → Nat
  | _, [] => 0
  | prev, a :: t => (if some a = prev then 0 else 1) + runsFrom (some a) t

/-- 1 when a run is currently open (a tracked item exists), else 0. -/
def pend : Option Item → Nat
  | none => 0
  | some _ => 1

/-- Abstraction of one buffer step for the counting argument: the tracked
item and the number of per-track records emitted so far.  A buffer of the
tracked item changes nothing; a differing item closes the open run (one
record if a run was open) and opens a new one. -/
def specStep (p : Option Item × Nat) (a : Item) : Option Item × Nat :=
  if some a = p.1 then p else (some a, p.2 + pend p.1)

/-- The state invariant of the worker loop: the current slot holds an
accumulator exactly when a track is being followed. -/
def aligned (s : LoudState) : Prop :=
  (s.slots s.curTrackIndex).isSome ↔ s.infoHead.isSome

/-- The full worker-loop invariant: `aligned`, and in album mode the slot
index equals the number of per-track records emitted so far while the
history capacity stays at its attach-time 128 (the corrupting resize, the
only writer of `state_history_count`, never returns). -/
def invar (s : LoudState) : Prop :=
  aligned s
  ∧ (s.disableAlbum = false →
      s.curTrackIndex = perTrackCount s.queue ∧ s.stateHistoryCount = 128)

/-- A concrete instantiation of the external EBU R128 library, used to
evaluate the model at concrete inputs. -/
def exLib : EburLib :=
  { init := { loudness := 0, samplePeak0 := 0, samplePeak1 := 0, truePeak0 := 0, truePeak1 := 0 }
    addFrames := fun e _ => e
    merge := fun _ => 0 }

/-- A 129-track album-mode input, one buffer per track (items 0..128).
The 129th track's boundary exhausts the 128-slot history and reaches the
corrupting `resize_state_history`. -/
def overflowBufs : List Buf :=
  (List.range 129).map (fun i =>
    { item := i, pos := 0, frameCount := 0, sampleRate := 1, samples := 0 })

end Loudness

/-- The peak the claim's wording ascribes to an emitted record: the maximum
of the two independently reported peak channels — true peak and sample
peak — over the finished track's accumulator.  Stated from the spec's
words for comparison with `Loudness.mkTrackInfo`. -/
def specClaimPeak (e : Ebur) : ℚ :=
  max (max e.truePeak0 e.truePeak1) (max e.samplePeak0 e.samplePeak1)

theorem if_gt_eq_max (a b : ℚ) : (if b > a then b else a) = max a b := by
  rcases le_or_lt b a with h | h
  · rw [if_neg (not_lt.mpr h), max_eq_left h]
  · rw [if_pos h, max_eq_right h.le]

/-- C2: for every stage state and every item, `purge(item)` removes from
the output queue exactly the queued records whose item reference equals
`item` (the loudness queue keeps, in order, exactly the records failing the
`info_queue_purge` predicate; the player's event queue loses nothing since
events reference no item, gaining only the "now playing changed" event the
matching case emits), and each stage clears its position record to the
"none" state exactly when `item` is the current item. -/
theorem c2_purge_removes_exactly_matching :
    (∀ (s : Loudness.LoudState) (i : Item),
      (Loudness.sink_purge s i).queue
          = s.queue.filter (fun r => ! Loudness.info_queue_purge i r)
      ∧ (Loudness.sink_purge s i).infoHead
          = (if s.infoHead = some i then none else s.infoHead)
      ∧ (Loudness.sink_purge s i).infoPos
          = (if s.infoHead = some i then -1 else s.infoPos))
    ∧ (∀ (p : Player.PlayerState) (i : Item),
      (Player.sink_purge p i).events
          = p.events ++ (if p.playHead = some i then [Player.PEvent.nowplaying] else [])
      ∧ (Player.sink_purge p i).playHead
          = (if p.playHead = some i then none else p.playHead)
      ∧ (Player.sink_purge p i).playPos
          = (if p.playHead = some i then -1 else p.playPos)) := by
  constructor
  · intro s i
    simp only [Loudness.sink_purge]
    split_ifs with h <;> simp_all
  · intro p i
    simp only [Player.sink_purge]
    split_ifs with h <;> simp_all

/-- C3 counterexample: `sink_flush` does not reset the album duration
counter to its initial (zero) value — from a state with
`album_duration = 5` it stays 5, so flush does not reset every duration
counter to the stage's initial values. -/
theorem c3_flush_keeps_album_duration :
    (Loudness.sink_flush { Loudness.attachState false with albumDuration := 5 }).albumDuration
      ≠ (Loudness.attachState false).albumDuration := by
  decide

/-- C3 as amended: `sink_flush` empties the output queue (cleanup
decrementing the occupancy per record), destroys exactly the accumulators
in slots `0..cur_track_index`, resets the slot index, the track duration
counter and the current-item/position record to the "no track" state; the
album duration and album peak are left unchanged.  The player's flush
releases the held buffer and resets its byte bookkeeping. -/
theorem c3_flush_amended :
    (∀ s : Loudness.LoudState,
      (Loudness.sink_flush s).queue = []
      ∧ (Loudness.sink_flush s).infoQueueCount = s.infoQueueCount - s.queue.length
      ∧ (Loudness.sink_flush s).slots
          = (fun i => if i ≤ s.curTrackIndex then none else s.slots i)
      ∧ (Loudness.sink_flush s).curTrackIndex = 0
      ∧ (Loudness.sink_flush s).trackDuration = 0
      ∧ (Loudness.sink_flush s).infoHead = none
      ∧ (Loudness.sink_flush s).infoPos = -1
      ∧ (Loudness.sink_flush s).albumDuration = s.albumDuration
      ∧ (Loudness.sink_flush s).albumPeak = s.albumPeak)
    ∧ (∀ p : Player.PlayerState,
      Player.sink_flush p
        = { p with audioBuf := none, audioBufIndex := 0, audioBufSize := 0 }) :=
  ⟨fun _ => ⟨rfl, rfl, rfl, rfl, rfl, rfl, rfl, rfl, rfl⟩, fun _ => rfl⟩

/-- C5 counterexample: `groove_loudness_detector_create` zero-fills the
private struct, leaving `info_head = NULL` with `info_pos = 0.0`, not the
`-1.0` sentinel — the claimed invariant does not hold at creation. -/
theorem c5_create_breaks_invariant :
    ¬ posInv Loudness.create_private_state.infoHead
        Loudness.create_private_state.infoPos := by
  unfold posInv
  decide

/-- C5 as amended: the end-of-stream branch and the loudness flush force
the position record to (null, −1); purge preserves the invariant on both
stages; the player flush leaves the pair untouched.  But creation and
loudness detach leave (null, 0) — seconds 0, not the −1 sentinel — so
those two operations do not establish the invariant. -/
theorem c5_amended_position_invariant :
    (∀ (L : EburLib) (s : Loudness.LoudState),
        match Loudness.handleEnd L s with
        | none => True
        | some s1 => s1.infoHead = none ∧ s1.infoPos = -1)
    ∧ (∀ (s : Loudness.LoudState) (i : Item),
        posInv s.infoHead s.infoPos →
          posInv (Loudness.sink_purge s i).infoHead (Loudness.sink_purge s i).infoPos)
    ∧ (∀ s : Loudness.LoudState,
        (Loudness.sink_flush s).infoHead = none ∧ (Loudness.sink_flush s).infoPos = -1)
    ∧ (∀ (p : Player.PlayerState) (i : Item),
        posInv p.playHead p.playPos →
          posInv (Player.sink_purge p i).playHead (Player.sink_purge p i).playPos)
    ∧ (∀ p : Player.PlayerState,
        (Player.sink_flush p).playHead = p.playHead
        ∧ (Player.sink_flush p).playPos = p.playPos)
    ∧ (Loudness.create_private_state.infoHead = none
        ∧ Loudness.create_private_state.infoPos = 0)
    ∧ (∀ s : Loudness.LoudState,
        (Loudness.detector_detach s).infoHead = none
        ∧ (Loudness.detector_detach s).infoPos = 0) := by
  refine ⟨?_, ?_, fun _ => ⟨rfl, rfl⟩, ?_, fun _ => ⟨rfl, rfl⟩, ⟨rfl, rfl⟩,
    fun _ => ⟨rfl, rfl⟩⟩
  · intro L s
    unfold Loudness.handleEnd
    cases Loudness.emit_track_info s with
    | none => trivial
    | some s1 => exact ⟨rfl, rfl⟩
  · intro s i h
    simp only [Loudness.sink_purge]
    split_ifs with hh
    · simp [posInv]
    · simpa [posInv] using h
  · intro p i h
    simp only [Player.sink_purge]
    split_ifs with hh
    · simp [posInv]
    · simpa [posInv] using h

/-- C5 witness: purge applied to states satisfying the invariant, on both
stages, at concrete inputs. -/
theorem c5_amended_witness :
    posInv (Loudness.sink_purge (Loudness.sink_flush Loudness.create_private_state) 3).infoHead
        (Loudness.sink_purge (Loudness.sink_flush Loudness.create_private_state) 3).infoPos
    ∧ posInv (Player.sink_purge
          { audioBuf := none, audioBufSize := 0, audioBufIndex := 0,
            playHead := none, playPos := -1, events := [] } 2).playHead
        (Player.sink_purge
          { audioBuf := none, audioBufSize := 0, audioBufIndex := 0,
            playHead := none, playPos := -1, events := [] } 2).playPos :=
  ⟨c5_amended_position_invariant.2.1 (Loudness.sink_flush Loudness.create_private_state) 3
      (by constructor <;> intro <;> rfl),
   c5_amended_position_invariant.2.2.2.1
      { audioBuf := none, audioBufSize := 0, audioBufIndex := 0,
        playHead := none, playPos := -1, events := [] } 2
      (by constructor <;> intro <;> rfl)⟩

/-- C6 counterexample: on an accumulator whose reported sample peaks are
1 and 2 but whose true peaks are 5, the emitted record's peak is 2 — the
code takes the larger of the channel-0 and channel-1 *sample* peaks, not
the maximum of true peak and sample peak claimed. -/
theorem c6_peak_is_not_true_peak_max :
    (Loudness.mkTrackInfo (Loudness.attachState false)
        { loudness := 0, samplePeak0 := 1, samplePeak1 := 2,
          truePeak0 := 5, truePeak1 := 5 }).peak
      ≠ specClaimPeak
          { loudness := 0, samplePeak0 := 1, samplePeak1 := 2,
            truePeak0 := 5, truePeak1 := 5 } := by
  decide

/-- C6 as amended: the emitted per-track peak is the maximum of the
sample peaks reported for channel 0 and channel 1 of the finished track's
accumulator, and each emission updates the album peak to the maximum of
its previous value and that per-track peak. -/
theorem c6_amended_sample_peak_max :
    ∀ (s : Loudness.LoudState) (e : Ebur),
      (Loudness.mkTrackInfo s e).peak = max e.samplePeak0 e.samplePeak1
      ∧ (Loudness.emitWith s e).albumPeak
          = max s.albumPeak (Loudness.mkTrackInfo s e).peak := by
  intro s e
  constructor
  · exact if_gt_eq_max e.samplePeak0 e.samplePeak1
  · exact if_gt_eq_max s.albumPeak (Loudness.mkTrackInfo s e).peak

/-- C7: evaluation of `resize_state_history` at its first trigger (album
mode, 128 occupied slots).  The `realloc` size argument is the new slot
count (256 bytes) where the spec's growth policy needs
`256 * sizeof(ebur128_state*) = 2048` bytes; the block even shrinks below
the prior 1024 bytes, to a 32-slot capacity that cannot preserve the 128
existing entries, and the `memset` of the "new" slots starts at byte 1024
and ends at byte 1152, entirely outside the 256-byte block. -/
theorem c7_resize_byte_count_bug :
    (ReallocModel.resize_realloc_bytes ReallocModel.attachAlloc).allocBytes = 256
    ∧ ReallocModel.specGrowBytes ReallocModel.attachAlloc = 2048
    ∧ (ReallocModel.resize_realloc_bytes ReallocModel.attachAlloc).allocBytes
        < ReallocModel.attachAlloc.allocBytes
    ∧ ReallocModel.slotCapacity (ReallocModel.resize_realloc_bytes ReallocModel.attachAlloc)
        < ReallocModel.attachAlloc.histCount
    ∧ (ReallocModel.resize_realloc_bytes ReallocModel.attachAlloc).allocBytes
        < ReallocModel.resize_memset_start ReallocModel.attachAlloc
          + ReallocModel.resize_memset_len ReallocModel.attachAlloc := by
  decide

/-- C9: `groove_loudness_detector_create` initialises the backpressure
threshold to `INT_MAX`, and at that threshold the worker's drain gate
fetches for every occupancy below `INT_MAX`. -/
theorem c9_create_sets_intmax_threshold :
    Loudness.detector_create.infoQueueSize = Loudness.intMax
    ∧ ∀ cnt : Int, cnt < Loudness.intMax →
        Loudness.detect_thread_gate Loudness.detector_create.infoQueueSize cnt
          = Loudness.WorkerAct.fetch := by
  refine ⟨rfl, fun cnt h => ?_⟩
  have : ¬ Loudness.detector_create.infoQueueSize ≤ cnt := not_le.mpr h
  simp [Loudness.detect_thread_gate, this]

/-- C9 witness: a freshly created detector's gate fetches at occupancy
1000000. -/
theorem c9_witness :
    Loudness.detect_thread_gate Loudness.detector_create.infoQueueSize 1000000
      = Loudness.WorkerAct.fetch :=
  c9_create_sets_intmax_threshold.2 1000000 (by decide)

/-- C4: in every trace of worker-loop passes interleaved with consumer
gets, a pass that goes on to fetch from the source saw an occupancy
strictly below the configured threshold — at or above the threshold the
worker only waits. -/
theorem c4_fetch_only_below_threshold :
    ∀ (size cnt : Int) (steps : List Loudness.SysStep) (e : Loudness.TraceEntry),
      e ∈ Loudness.traceRun size cnt steps → e.fetched = true → e.cntBefore < size := by
  intro size cnt steps
  induction steps generalizing cnt with
  | nil =>
    intro e h
    simp [Loudness.traceRun] at h
  | cons st rest ih =>
    intro e hmem hf
    cases st with
    | workerIter puts =>
      by_cases hc : size ≤ cnt
      · rw [show Loudness.traceRun size cnt (Loudness.SysStep.workerIter puts :: rest)
              = { cntBefore := cnt, fetched := false } :: Loudness.traceRun size cnt rest from by
            simp [Loudness.traceRun, Loudness.detect_thread_gate, hc]] at hmem
        rcases List.mem_cons.mp hmem with he | ht
        · rw [he] at hf
          cases hf
        · exact ih cnt e ht hf
      · rw [show Loudness.traceRun size cnt (Loudness.SysStep.workerIter puts :: rest)
              = { cntBefore := cnt, fetched := true }
                  :: Loudness.traceRun size (cnt + puts) rest from by
            simp [Loudness.traceRun, Loudness.detect_thread_gate, hc]] at hmem
        rcases List.mem_cons.mp hmem with he | ht
        · rw [he]
          exact not_le.mp hc
        · exact ih (cnt + puts) e ht hf
    | consumerGet =>
      rw [show Loudness.traceRun size cnt (Loudness.SysStep.consumerGet :: rest)
            = Loudness.traceRun size (cnt - 1) rest from by simp [Loudness.traceRun]] at hmem
      exact ih (cnt - 1) e hmem hf

/-- C4 witness: in the trace at threshold 1 over the schedule
fetch, saturated wait, consumer get, fetch — the recorded fetching pass
saw occupancy 0 < 1. -/
theorem c4_witness :
    ({ cntBefore := 0, fetched := true } : Loudness.TraceEntry).cntBefore < 1 :=
  c4_fetch_only_below_threshold 1 0
    [Loudness.SysStep.workerIter 1, Loudness.SysStep.workerIter 1,
     Loudness.SysStep.consumerGet, Loudness.SysStep.workerIter 1]
    { cntBefore := 0, fetched := true } (by decide) rfl

namespace Loudness

theorem perTrackCount_append (q1 q2 : List LoudInfo) :
    perTrackCount (q1 ++ q2) = perTrackCount q1 + perTrackCount q2 :=
  List.countP_append _ _ _

theorem beginTrack_slot (L : EburLib) (b : Buf) (s1 : LoudState) :
    (beginTrack L b s1).slots (beginTrack L b s1).curTrackIndex = some L.init :=
  Function.update_same _ _ _

theorem accumulate_slot (L : EburLib) (b : Buf) (s1 : LoudState) (e : Ebur) :
    (accumulate L b s1 e).slots (accumulate L b s1 e).curTrackIndex
      = some (L.addFrames e b.samples) :=
  Function.update_same _ _ _

theorem trackBoundary_of_slot_none (L : EburLib) (s : LoudState) (b : Buf)
    (he : s.slots s.curTrackIndex = none) :
    trackBoundary L s b = some (beginTrack L b s) := by
  simp only [trackBoundary, he]
  rfl

theorem trackBoundary_of_disable_album (L : EburLib) (s : LoudState) (b : Buf) (e : Ebur)
    (he : s.slots s.curTrackIndex = some e) (hda : s.disableAlbum = true) :
    trackBoundary L s b = some (beginTrack L b
      { emitWith s e with
        slots := Function.update (emitWith s e).slots (emitWith s e).curTrackIndex none }) := by
  simp only [trackBoundary, he]
  rw [if_pos (show (emitWith s e).disableAlbum = true from hda)]
  rfl

theorem trackBoundary_of_album_ok (L : EburLib) (s : LoudState) (b : Buf) (e : Ebur)
    (he : s.slots s.curTrackIndex = some e) (hda : s.disableAlbum = false)
    (hg : ¬ s.stateHistoryCount ≤ s.curTrackIndex + 1) :
    trackBoundary L s b = some (beginTrack L b
      { emitWith s e with curTrackIndex := (emitWith s e).curTrackIndex + 1 }) := by
  simp only [trackBoundary, he]
  rw [if_neg (show ¬ (emitWith s e).disableAlbum = true from by
    rw [show (emitWith s e).disableAlbum = s.disableAlbum from rfl, hda]
    exact Bool.false_ne_true)]
  rw [if_neg (show ¬ ({ emitWith s e with
        curTrackIndex := (emitWith s e).curTrackIndex + 1 } : LoudState).stateHistoryCount
      ≤ ({ emitWith s e with
        curTrackIndex := (emitWith s e).curTrackIndex + 1 } : LoudState).curTrackIndex from hg)]
  rfl

theorem trackBoundary_of_album_crash (L : EburLib) (s : LoudState) (b : Buf) (e : Ebur)
    (he : s.slots s.curTrackIndex = some e) (hda : s.disableAlbum = false)
    (hg : s.stateHistoryCount ≤ s.curTrackIndex + 1) :
    trackBoundary L s b = none := by
  simp only [trackBoundary, he]
  rw [if_neg (show ¬ (emitWith s e).disableAlbum = true from by
    rw [show (emitWith s e).disableAlbum = s.disableAlbum from rfl, hda]
    exact Bool.false_ne_true)]
  rw [if_pos (show ({ emitWith s e with
        curTrackIndex := (emitWith s e).curTrackIndex + 1 } : LoudState).stateHistoryCount
      ≤ ({ emitWith s e with
        curTrackIndex := (emitWith s e).curTrackIndex + 1 } : LoudState).curTrackIndex from hg)]
  rfl

theorem processBuffer_of_some (L : EburLib) (s : LoudState) (s1 : LoudState) (b : Buf) (e : Ebur)
    (h1 : (if some b.item = s.infoHead then some s else trackBoundary L s b) = some s1)
    (h2 : s1.slots s1.curTrackIndex = some e) :
    processBuffer L s b = some (accumulate L b s1 e) := by
  simp only [processBuffer, h1, h2]

theorem processBuffer_step (L : EburLib) (s : LoudState) (b : Buf) (hi : invar s) :
    (∃ s', processBuffer L s b = some s'
        ∧ invar s' ∧ s'.disableAlbum = s.disableAlbum
        ∧ (s'.infoHead, perTrackCount s'.queue)
            = specStep (s.infoHead, perTrackCount s.queue) b.item)
    ∨ (processBuffer L s b = none ∧ s.disableAlbum = false
        ∧ ¬ some b.item = s.infoHead ∧ s.infoHead.isSome
        ∧ 128 ≤ perTrackCount s.queue + 1) := by
  obtain ⟨ha, halb⟩ := hi
  by_cases hb : some b.item = s.infoHead
  · -- same-track iteration: always defined, nothing emitted
    left
    have hhead : s.infoHead.isSome := by rw [← hb]; rfl
    obtain ⟨e, he⟩ := Option.isSome_iff_exists.mp (ha.mpr hhead)
    refine ⟨accumulate L b s e, processBuffer_of_some L s s b e (if_pos hb) he,
      ⟨?_, ?_⟩, rfl, ?_⟩
    · show ((accumulate L b s e).slots (accumulate L b s e).curTrackIndex).isSome ↔ _
      rw [accumulate_slot]
      exact ⟨fun _ => hhead, fun _ => rfl⟩
    · exact halb
    · simp only [specStep, if_pos hb]
      rfl
  · cases he : s.slots s.curTrackIndex with
    | none =>
      -- boundary with no prior accumulator: no emission, no resize
      left
      have hh : s.infoHead = none := by
        refine Option.not_isSome_iff_eq_none.mp (fun hs => ?_)
        have := ha.mpr hs
        rw [he] at this
        exact Bool.noConfusion this
      refine ⟨accumulate L b (beginTrack L b s) L.init,
        processBuffer_of_some L s _ b L.init
          (by rw [if_neg hb]; exact trackBoundary_of_slot_none L s b he)
          (beginTrack_slot L b s),
        ⟨?_, ?_⟩, rfl, ?_⟩
      · show ((accumulate L b (beginTrack L b s) L.init).slots
            (accumulate L b (beginTrack L b s) L.init).curTrackIndex).isSome ↔ _
        rw [accumulate_slot]
        exact ⟨fun _ => rfl, fun _ => rfl⟩
      · exact halb
      · simp only [specStep, if_neg hb, Prod.mk.injEq]
        exact ⟨rfl, by rw [hh]; rfl⟩
    | some e =>
      have hhead : s.infoHead.isSome := ha.mp (by rw [he]; rfl)
      obtain ⟨v, hv⟩ := Option.isSome_iff_exists.mp hhead
      have hcount : perTrackCount (s.queue ++ [mkTrackInfo s e])
          = perTrackCount s.queue + pend s.infoHead := by
        rw [perTrackCount_append, hv]
        simp [perTrackCount, mkTrackInfo, hv, pend]
      by_cases hda : s.disableAlbum = true
      · -- single-track mode: emit, destroy, fresh accumulator
        left
        refine ⟨accumulate L b (beginTrack L b
            { emitWith s e with
              slots := Function.update (emitWith s e).slots (emitWith s e).curTrackIndex none })
            L.init,
          processBuffer_of_some L s _ b L.init
            (by rw [if_neg hb]; exact trackBoundary_of_disable_album L s b e he hda)
            (beginTrack_slot L b _),
          ⟨?_, ?_⟩, rfl, ?_⟩
        · show ((accumulate L b _ L.init).slots (accumulate L b _ L.init).curTrackIndex).isSome ↔ _
          rw [accumulate_slot]
          exact ⟨fun _ => rfl, fun _ => rfl⟩
        · intro h0
          have h0' : s.disableAlbum = false := h0
          rw [hda] at h0'
          exact Bool.noConfusion h0'
        · simp only [specStep, if_neg hb, Prod.mk.injEq]
          exact ⟨rfl, hcount⟩
      · have hda' : s.disableAlbum = false := by
          cases hdab : s.disableAlbum
          · rfl
          · exact absurd hdab hda
        obtain ⟨hcur, hhist⟩ := halb hda'
        by_cases hg : s.stateHistoryCount ≤ s.curTrackIndex + 1
        · -- the 129th distinct track: the corrupting resize is reached
          right
          refine ⟨?_, hda', hb, hhead, ?_⟩
          · simp only [processBuffer, if_neg hb,
              trackBoundary_of_album_crash L s b e he hda' hg]
          · rw [hhist, hcur] at hg
            exact hg
        · -- album mode with history to spare: emit and advance the slot index
          left
          refine ⟨accumulate L b (beginTrack L b
              { emitWith s e with curTrackIndex := (emitWith s e).curTrackIndex + 1 }) L.init,
            processBuffer_of_some L s _ b L.init
              (by rw [if_neg hb]; exact trackBoundary_of_album_ok L s b e he hda' hg)
              (beginTrack_slot L b _),
            ⟨?_, ?_⟩, rfl, ?_⟩
          · show ((accumulate L b _ L.init).slots (accumulate L b _ L.init).curTrackIndex).isSome ↔ _
            rw [accumulate_slot]
            exact ⟨fun _ => rfl, fun _ => rfl⟩
          · intro h0
            refine ⟨?_, hhist⟩
            show s.curTrackIndex + 1 = perTrackCount (s.queue ++ [mkTrackInfo s e])
            rw [hcount, hv, hcur]
            rfl
          · simp only [specStep, if_neg hb, Prod.mk.injEq]
            exact ⟨rfl, hcount⟩

theorem specStep_fst_isSome (p : Option Item × Nat) (a : Item) :
    ((specStep p a).1).isSome := by
  unfold specStep
  split_ifs with h
  · rw [← h]; rfl
  · rfl

theorem specFold_fst_isSome (t : List Item) (p : Option Item × Nat) (h : p.1.isSome) :
    ((List.foldl specStep p t).1).isSome := by
  induction t generalizing p with
  | nil => exact h
  | cons a t ih => rw [List.foldl_cons]; exact ih _ (specStep_fst_isSome p a)

theorem specFold_runs (items : List Item) (p : Option Item × Nat) :
    (List.foldl specStep p items).2 + pend (List.foldl specStep p items).1
      = p.2 + pend p.1 + runsFrom p.1 items := by
  induction items generalizing p with
  | nil => simp [runsFrom]
  | cons a t ih =>
    rw [List.foldl_cons]
    by_cases h : some a = p.1
    · rw [show specStep p a = p from by simp [specStep, h], ih p]
      rw [show runsFrom p.1 (a :: t) = runsFrom p.1 t from by
        rw [runsFrom, if_pos h, ← h]
        omega]
    · rw [show specStep p a = (some a, p.2 + pend p.1) from by simp [specStep, h], ih]
      rw [runsFrom, if_neg h]
      simp [pend]
      omega

theorem budget_step (p : Option Item × Nat) (a : Item) (t : List Item) :
    (specStep p a).2 + pend (specStep p a).1 + runsFrom (specStep p a).1 t
      = p.2 + pend p.1 + runsFrom p.1 (a :: t) := by
  by_cases h : some a = p.1
  · rw [show specStep p a = p from by simp [specStep, h]]
    rw [runsFrom, if_pos h, ← h]
    omega
  · rw [show specStep p a = (some a, p.2 + pend p.1) from by simp [specStep, h]]
    rw [runsFrom, if_neg h]
    simp [pend]
    omega

theorem runBuffers_invar (L : EburLib) (bufs : List Buf) :
    ∀ s s' : LoudState, invar s → runBuffers L s bufs = (s', true) →
      invar s' ∧ s'.disableAlbum = s.disableAlbum ∧
        (s'.infoHead, perTrackCount s'.queue)
          = List.foldl specStep (s.infoHead, perTrackCount s.queue) (bufs.map Buf.item) := by
  induction bufs with
  | nil =>
    intro s s' hi h
    simp only [runBuffers] at h
    injection h with h1 _
    subst h1
    exact ⟨hi, rfl, rfl⟩
  | cons b t ih =>
    intro s s' hi h
    simp only [runBuffers] at h
    cases hpb : processBuffer L s b with
    | none =>
      simp only [hpb] at h
      injection h with _ h2
      exact Bool.noConfusion h2
    | some s1 =>
      simp only [hpb] at h
      rcases processBuffer_step L s b hi with ⟨s1', hps, hinv1, hda1, hpair1⟩ | ⟨hnone, _⟩
      · have h1 : s1' = s1 := Option.some.inj (hps.symm.trans hpb)
        rw [h1] at hinv1 hda1 hpair1
        obtain ⟨hinv', hda', hpair'⟩ := ih s1 s' hinv1 h
        refine ⟨hinv', by rw [hda', hda1], ?_⟩
        rw [List.map_cons, List.foldl_cons, ← hpair1]
        exact hpair'
      · rw [hnone] at hpb
        exact Option.noConfusion hpb

theorem runBuffers_total (L : EburLib) (bufs : List Buf) :
    ∀ s : LoudState, invar s →
      (s.disableAlbum = false →
        perTrackCount s.queue + pend s.infoHead
          + runsFrom s.infoHead (bufs.map Buf.item) ≤ 128) →
      (runBuffers L s bufs).2 = true := by
  induction bufs with
  | nil => intro s _ _; rfl
  | cons b t ih =>
    intro s hi hbud
    rcases processBuffer_step L s b hi with ⟨s1, hps, hinv1, hda1, hpair1⟩ | crash
    · simp only [runBuffers, hps]
      apply ih s1 hinv1
      intro hda0
      have hb0 : s.disableAlbum = false := by rw [← hda1]; exact hda0
      have h1 := hbud hb0
      have h2 := budget_step (s.infoHead, perTrackCount s.queue) b.item (t.map Buf.item)
      rw [← hpair1] at h2
      simp only at h2
      rw [List.map_cons] at h1
      omega
    · exfalso
      obtain ⟨_, hda, hb, hhead, hcnt⟩ := crash
      have h1 := hbud hda
      rw [List.map_cons, runsFrom, if_neg hb] at h1
      have hp : pend s.infoHead = 1 := by
        obtain ⟨v, hv⟩ := Option.isSome_iff_exists.mp hhead
        rw [hv]
        rfl
      omega

theorem attachState_invar (da : Bool) : invar (attachState da) := by
  refine ⟨Iff.rfl, fun hda => ⟨rfl, ?_⟩⟩
  have hda' : da = false := hda
  simp [attachState, hda']

theorem handleEnd_some (L : EburLib) (s : LoudState) (e : Ebur)
    (he : s.slots s.curTrackIndex = some e) :
    ∃ s1, handleEnd L s = some s1
      ∧ s1.queue = s.queue ++ [mkTrackInfo s e] ++ [mkAlbumInfo L (emitWith s e)] := by
  unfold handleEnd emit_track_info
  rw [he]
  refine ⟨_, rfl, ?_⟩
  by_cases hda : s.disableAlbum = true <;>
    simp [hda, emitWith, putInfo]

end Loudness

set_option maxRecDepth 8000 in
/-- C1 counterexample: on a 129-track album-mode input the worker reaches
the corrupting `resize_state_history` at the 129th track's boundary and
the run has no defined completion — the model records the 127 per-track
records enqueued by the fully executed iterations, which cannot equal the
129 maximal runs of the input. -/
theorem c1_resize_kills_run_counterexample :
    (Loudness.runDetect Loudness.exLib false Loudness.overflowBufs).2 = none
    ∧ Loudness.perTrackCount (Loudness.runDetect Loudness.exLib false Loudness.overflowBufs).1
        ≠ Loudness.runsFrom none (Loudness.overflowBufs.map Buf.item) := by
  constructor
  · have h : ((Loudness.runDetect Loudness.exLib false Loudness.overflowBufs).2).isSome
        = false := by decide
    exact Option.not_isSome_iff_eq_none.mp (by rw [h]; exact Bool.false_ne_true)
  · decide

/-- C1 as amended: for every buffer sequence that stays within the
accumulator history — at most 128 distinct maximal runs when album mode is
enabled, any number in single-track mode — the per-track info records
enqueued (records with a non-null item) are exactly as many as the
distinct maximal runs of identical track items, for any behaviour of the
external accumulator library.  Beyond 128 runs in album mode the worker
reaches the corrupting resize and its behaviour is undefined. -/
theorem c1_amended_runs_within_capacity
    (L : EburLib) (da : Bool) (bufs : List Buf)
    (h : da = false → Loudness.runsFrom none (bufs.map Buf.item) ≤ 128) :
    Loudness.perTrackCount (Loudness.runDetect L da bufs).1
      = Loudness.runsFrom none (bufs.map Buf.item) := by
  have htotal : (Loudness.runBuffers L (Loudness.attachState da) bufs).2 = true := by
    apply Loudness.runBuffers_total L bufs _ (Loudness.attachState_invar da)
    intro hda
    have h1 := h hda
    simpa [Loudness.attachState, Loudness.create_private_state, Loudness.perTrackCount,
      Loudness.pend] using h1
  rcases hrb : Loudness.runBuffers L (Loudness.attachState da) bufs with ⟨s', flag⟩
  rw [hrb] at htotal
  change flag = true at htotal
  subst htotal
  obtain ⟨hinv', _, hpair⟩ :=
    Loudness.runBuffers_invar L bufs (Loudness.attachState da) s'
      (Loudness.attachState_invar da) hrb
  cases bufs with
  | nil =>
    have hs : s' = Loudness.attachState da := by
      simp only [Loudness.runBuffers] at hrb
      injection hrb with h1 _
      exact h1.symm
    subst hs
    simp [Loudness.runDetect, Loudness.runBuffers, Loudness.handleEnd,
      Loudness.emit_track_info, Loudness.attachState, Loudness.create_private_state,
      Loudness.perTrackCount, Loudness.runsFrom]
  | cons b t =>
    have hpair0 : (s'.infoHead, Loudness.perTrackCount s'.queue)
        = List.foldl Loudness.specStep (none, 0) ((b :: t).map Buf.item) := hpair
    have hsome : s'.infoHead.isSome := by
      rw [show s'.infoHead
            = (List.foldl Loudness.specStep (none, 0) ((b :: t).map Buf.item)).1 from
          congrArg Prod.fst hpair0]
      rw [List.map_cons, List.foldl_cons]
      exact Loudness.specFold_fst_isSome _ _ (Loudness.specStep_fst_isSome _ _)
    obtain ⟨e, he⟩ := Option.isSome_iff_exists.mp (hinv'.1.mpr hsome)
    obtain ⟨s1, hend, hq⟩ := Loudness.handleEnd_some L s' e he
    rw [show Loudness.runDetect L da (b :: t) = (s1.queue, some s1) from by
      simp [Loudness.runDetect, hrb, hend]]
    obtain ⟨v, hv⟩ := Option.isSome_iff_exists.mp hsome
    have hti : Loudness.perTrackCount [Loudness.mkTrackInfo s' e] = 1 := by
      simp [Loudness.perTrackCount, Loudness.mkTrackInfo, hv]
    have hai : Loudness.perTrackCount [Loudness.mkAlbumInfo L (Loudness.emitWith s' e)] = 0 := by
      simp [Loudness.perTrackCount, Loudness.mkAlbumInfo]
    rw [hq, Loudness.perTrackCount_append, Loudness.perTrackCount_append, hti, hai]
    have hruns := Loudness.specFold_runs ((b :: t).map Buf.item) (none, 0)
    rw [← congrArg Prod.fst hpair0, ← congrArg Prod.snd hpair0, hv] at hruns
    simp [Loudness.pend] at hruns
    rw [List.map_cons]
    omega

/-- C1 amended witness: a two-track album-mode run, within capacity. -/
theorem c1_amended_witness :
    Loudness.perTrackCount (Loudness.runDetect Loudness.exLib false
        [{ item := 3, pos := 0, frameCount := 0, sampleRate := 1, samples := 0 },
         { item := 4, pos := 0, frameCount := 0, sampleRate := 1, samples := 0 }]).1
      = Loudness.runsFrom none
          ([{ item := 3, pos := 0, frameCount := 0, sampleRate := 1, samples := 0 },
            { item := 4, pos := 0, frameCount := 0, sampleRate := 1, samples := 0 }].map
            Buf.item) :=
  c1_amended_runs_within_capacity Loudness.exLib false
    [{ item := 3, pos := 0, frameCount := 0, sampleRate := 1, samples := 0 },
     { item := 4, pos := 0, frameCount := 0, sampleRate := 1, samples := 0 }]
    (by decide)

/-- C10: the end-of-stream branch performs its final per-track emission
unconditionally — on a stream that delivered no buffer since the worker
started, it reads the NULL accumulator in the current slot and the run
dies on the null dereference; and whenever the worker does reach
end-of-stream after consuming at least one buffer, the current slot holds
an accumulator and the final emission completes. -/
theorem c10_empty_stream_hits_null_accumulator (L : EburLib) (da : Bool) :
    (Loudness.runDetect L da []).2 = none
    ∧ ∀ bufs : List Buf, bufs ≠ [] →
        (match Loudness.runBuffers L (Loudness.attachState da) bufs with
         | (s', true) => (Loudness.handleEnd L s').isSome
         | (_, false) => True) := by
  constructor
  · simp [Loudness.runDetect, Loudness.runBuffers, Loudness.handleEnd,
      Loudness.emit_track_info, Loudness.attachState, Loudness.create_private_state]
  · intro bufs hne
    split
    case h_2 => trivial
    case h_1 s' hrb =>
      obtain ⟨hinv', _, hpair⟩ :=
        Loudness.runBuffers_invar L bufs (Loudness.attachState da) s'
          (Loudness.attachState_invar da) hrb
      cases bufs with
      | nil => exact absurd rfl hne
      | cons b t =>
        have hpair0 : (s'.infoHead, Loudness.perTrackCount s'.queue)
            = List.foldl Loudness.specStep (none, 0) ((b :: t).map Buf.item) := hpair
        have hsome : s'.infoHead.isSome := by
          rw [show s'.infoHead
                = (List.foldl Loudness.specStep (none, 0) ((b :: t).map Buf.item)).1 from
              congrArg Prod.fst hpair0]
          rw [List.map_cons, List.foldl_cons]
          exact Loudness.specFold_fst_isSome _ _ (Loudness.specStep_fst_isSome _ _)
        obtain ⟨e, he⟩ := Option.isSome_iff_exists.mp (hinv'.1.mpr hsome)
        obtain ⟨s1, hend, _⟩ := Loudness.handleEnd_some L s' e he
        rw [hend]
        rfl

/-- C8: in a playing fill invocation, when the loop reaches its
non-blocking fetch (held buffer exhausted) and the fetch fails — neither
data nor end-of-stream — exactly one "buffer underrun" event is appended,
the entire remaining output region is filled with zeros, the rest of the
fetch-result sequence is left unconsumed (the loop stops), and the
position record is untouched.  Stated both at an arbitrary re-entry of
the fetch loop and for the whole callback invocation. -/
theorem c8_underrun_silence_and_stop :
    (∀ (bps : ℚ) (p : Player.PlayerState) (n : Nat) (fr : List Player.FetchRes),
      Player.fillFetchLoop false bps (Player.FetchRes.no :: fr) p (n + 1)
        = some ({ p with audioBufIndex := 0, audioBufSize := 0, audioBuf := none,
                         events := p.events ++ [Player.PEvent.bufferunderrun] },
                fr, List.replicate (n + 1) 0))
    ∧ (∀ (bps : ℚ) (p : Player.PlayerState) (len : Nat) (fr : List Player.FetchRes),
      0 < len → p.audioBufSize ≤ p.audioBufIndex →
      Player.sdl_audio_callback false bps p len (Player.FetchRes.no :: fr)
        = some ({ p with audioBufIndex := 0, audioBufSize := 0, audioBuf := none,
                         events := p.events ++ [Player.PEvent.bufferunderrun] },
                fr, List.replicate len 0)) := by
  have hloop : ∀ (bps : ℚ) (p : Player.PlayerState) (n : Nat) (fr : List Player.FetchRes),
      Player.fillFetchLoop false bps (Player.FetchRes.no :: fr) p (n + 1)
        = some ({ p with audioBufIndex := 0, audioBufSize := 0, audioBuf := none,
                         events := p.events ++ [Player.PEvent.bufferunderrun] },
                fr, List.replicate (n + 1) 0) := by
    intro bps p n fr
    simp [Player.fillFetchLoop, Player.fetchUpdate]
  refine ⟨hloop, fun bps p len fr hlen hex => ?_⟩
  obtain ⟨n, rfl⟩ := Nat.exists_eq_succ_of_ne_zero (Nat.pos_iff_ne_zero.mp hlen)
  rw [show Player.sdl_audio_callback false bps p (n + 1) (Player.FetchRes.no :: fr)
        = Player.fillFetchLoop false bps (Player.FetchRes.no :: fr) p (n + 1) from by
    simp [Player.sdl_audio_callback, hex]]
  exact hloop bps p n fr

/-- C8 witness: a concrete playing invocation with an exhausted buffer and
a failing fetch. -/
theorem c8_witness :
    Player.sdl_audio_callback false 1
        { audioBuf := none, audioBufSize := 0, audioBufIndex := 0,
          playHead := some 7, playPos := 3, events := [] } 4 [Player.FetchRes.no]
      = some ({ audioBuf := none, audioBufSize := 0, audioBufIndex := 0,
                playHead := some 7, playPos := 3,
                events := [Player.PEvent.bufferunderrun] },
              [], List.replicate 4 0) := by
  have h := c8_underrun_silence_and_stop.2 1
    { audioBuf := none, audioBufSize := 0, audioBufIndex := 0,
      playHead := some 7, playPos := 3, events := [] } 4 [] (by decide) (by decide)
  simpa using h

/-- C10 witness: after one concrete buffer, the end-of-stream emission
finds an accumulator. -/
theorem c10_witness :
    (match Loudness.runBuffers Loudness.exLib (Loudness.attachState false)
        [{ item := 7, pos := 0, frameCount := 441, sampleRate := 44100, samples := 1 }] with
     | (s', true) => (Loudness.handleEnd Loudness.exLib s').isSome
     | (_, false) => True) :=
  (c10_empty_stream_hits_null_accumulator Loudness.exLib false).2
    [{ item := 7, pos := 0, frameCount := 441, sampleRate := 44100, samples := 1 }]
    (by simp)

end Libgroove
